import Mathlib

/-!
# Verification of the vapid.party notification dispatch core

Shallow embedding of the Notification Dispatch & Subscription Lifecycle
Engine: key-material normalization/validation (src/lib/types.ts,
src/lib/notifications.ts), the subscription registry and windowed rate
limiter (src/lib/db.ts), and the batched dispatch algorithm
(src/lib/notifications.ts).  Stores are modelled as lists of rows, time as
a natural-number parameter, and the transport collaborator as an outcome
oracle.
-/

namespace VapidParty

/-! ## Key-material encoding (src/lib/types.ts, src/lib/notifications.ts) -/

/-- JS whitespace, as removed by `input.replace` with an all-whitespace pattern. -/
def isWsChar (c : Char) : Bool :=
  c == ' ' || c == '\t' || c == '\n' || c == '\r' || c == '\x0b' || c == '\x0c'

/-- Remove every whitespace character (the `compact` step). -/
def stripWs (cs : List Char) : List Char :=
  cs.filter (fun c => !isWsChar c)

/-- One character of the combined base64/base64url alphabet `A-Z a-z 0-9 + / _ -`. -/
def isB64AlphaChar (c : Char) : Bool :=
  decide (65 ≤ c.toNat ∧ c.toNat ≤ 90) ||
  decide (97 ≤ c.toNat ∧ c.toNat ≤ 122) ||
  decide (48 ≤ c.toNat ∧ c.toNat ≤ 57) ||
  c == '+' || c == '/' || c == '_' || c == '-'

/-- Number of trailing `=` characters. -/
def padCount (cs : List Char) : Nat :=
  (cs.reverse.takeWhile (· == '=')).length

/-- The accepted shape: one or more combined-alphabet characters followed by
at most two `=` padding characters (the source's validation regex). -/
def shapeOk (cs : List Char) : Bool :=
  let p := padCount cs
  let body := cs.take (cs.length - p)
  decide (p ≤ 2) && !body.isEmpty && body.all isB64AlphaChar

/-- Map `-` to `+` and `_` to `/` (the two `replace` steps). -/
def mapDashChar (c : Char) : Char :=
  if c == '-' then '+' else if c == '_' then '/' else c

/-- Decoded 6-bit value of a standard-alphabet base64 character.  Only applied
to characters that passed the alphabet check and the dash mapping. -/
def b64Val (c : Char) : Nat :=
  if 65 ≤ c.toNat ∧ c.toNat ≤ 90 then c.toNat - 65
  else if 97 ≤ c.toNat ∧ c.toNat ≤ 122 then c.toNat - 97 + 26
  else if 48 ≤ c.toNat ∧ c.toNat ≤ 57 then c.toNat - 48 + 52
  else if c == '+' then 62
  else 63

/-- Data characters before the `=` terminator, as consumed by Node's decoder. -/
def dataChars (cs : List Char) : List Char :=
  cs.takeWhile (· != '=')

/-- Reassemble bytes from 6-bit groups the way Node's base64 decoder does:
each full group of four sextets yields three bytes; a trailing group of two
or three sextets yields one or two bytes; a lone trailing sextet is dropped. -/
def bytesOfSextets : List Nat → List Nat
  | a :: b :: c :: d :: rest =>
    (a * 4 + b / 16) :: (b % 16 * 16 + c / 4) :: (c % 4 * 64 + d) :: bytesOfSextets rest
  | [a, b] => [a * 4 + b / 16]
  | [a, b, c] => [a * 4 + b / 16, b % 16 * 16 + c / 4]
  | _ => []

/-- Six-bit groups of a byte list (the encoding direction). -/
def sextetsOfBytes : List Nat → List Nat
  | b1 :: b2 :: b3 :: rest =>
    (b1 / 4) :: (b1 % 4 * 16 + b2 / 16) :: (b2 % 16 * 4 + b3 / 64) :: (b3 % 64)
      :: sextetsOfBytes rest
  | [b1] => [b1 / 4, b1 % 4 * 16]
  | [b1, b2] => [b1 / 4, b1 % 4 * 16 + b2 / 16, b2 % 16 * 4]
  | [] => []

/-- Character of the base64url alphabet for a 6-bit value. -/
def b64UrlChar (v : Nat) : Char :=
  if v < 26 then Char.ofNat (65 + v)
  else if v < 52 then Char.ofNat (71 + v)
  else if v < 62 then Char.ofNat (v - 4)
  else if v == 62 then '-' else '_'

/-- Character of the standard base64 alphabet for a 6-bit value. -/
def b64StdChar (v : Nat) : Char :=
  if v < 26 then Char.ofNat (65 + v)
  else if v < 52 then Char.ofNat (71 + v)
  else if v < 62 then Char.ofNat (v - 4)
  else if v == 62 then '+' else '/'

/-- Model of `bytes.toString` with the `base64url` encoding: canonical unpadded base64url. -/
def encodeBase64url (bs : List Nat) : String :=
  ⟨(sextetsOfBytes bs).map b64UrlChar⟩

/-- Standard padded base64 (`+`/`/` with `=` padding): the alternative accepted
input encoding, used to state the round-trip property. -/
def encodeBase64Padded (bs : List Nat) : String :=
  let data := (sextetsOfBytes bs).map b64StdChar
  ⟨data ++ List.replicate ((4 - data.length % 4) % 4) '='⟩

/-- Decoded bytes of `Buffer.from` on a shape-checked string: map `-`/`_` to
`+`/`/`, drop the `=` tail, decode the sextets.  (The padding the source
appends before decoding does not change the decoded bytes, since `=` only
terminates a group.) -/
def decodeLoose (cs : List Char) : List Nat :=
  bytesOfSextets ((dataChars cs).map (fun c => b64Val (mapDashChar c)))

/-- The shared pipeline of `normalizeBase64Url` (src/lib/types.ts): strip
whitespace, check the shape, decode; `none` on empty input, bad shape, or
zero decoded bytes. -/
def strictDecodeBytes (input : String) : Option (List Nat) :=
  if (stripWs input.data).isEmpty then none
  else if !shapeOk (stripWs input.data) then none
  else if (decodeLoose (stripWs input.data)).isEmpty then none
  else some (decodeLoose (stripWs input.data))

/-- Model of `normalizeBase64Url` (src/lib/types.ts): canonical unpadded base64url, or `null`. -/
def normalizeBase64Url (input : String) : Option String :=
  (strictDecodeBytes input).map encodeBase64url

/-- Model of `normalizeBase64UrlMaybe` (src/lib/notifications.ts): the same pipeline,
but every failure returns the original input instead of rejecting. -/
def normalizeBase64UrlMaybe (input : String) : String :=
  if (stripWs input.data).isEmpty then input
  else if !shapeOk (stripWs input.data) then input
  else if (decodeLoose (stripWs input.data)).isEmpty then input
  else encodeBase64url (decodeLoose (stripWs input.data))

/-- Model of `Buffer.from` with the `base64url` encoding applied to a canonical value,
as used by the zod superRefine length checks. -/
def decodeBase64urlBytes (s : String) : List Nat :=
  decodeLoose s.data

/-- The `P256dhKey` schema (src/lib/types.ts): the base transform must succeed
and the canonical value must decode to exactly 65 bytes. -/
def p256dhAccepted (s : String) : Bool :=
  match normalizeBase64Url s with
  | none => false
  | some v => decide ((decodeBase64urlBytes v).length = 65)

/-- The `AuthKey` schema (src/lib/types.ts): the base transform must succeed
and the canonical value must decode to at least 16 bytes. -/
def authKeyAccepted (s : String) : Bool :=
  match normalizeBase64Url s with
  | none => false
  | some v => decide (16 ≤ (decodeBase64urlBytes v).length)

/-! ## Data model (src/lib/types.ts) -/

structure RateLimitConfig where
  maxNotificationsPerMinute : Nat
  maxNotificationsPerDay : Nat
  maxSubscriptions : Nat
deriving Repr, DecidableEq

structure App where
  id : String
  vapidPublicKey : String
  vapidPrivateKey : String
  rateLimit : RateLimitConfig
deriving Repr, DecidableEq

structure Subscription where
  id : String
  appId : String
  endpoint : String
  p256dh : String
  auth : String
  userId : Option String
  channelId : Option String
  metadata : String
  createdAt : Nat
  expiresAt : Option Nat
deriving Repr, DecidableEq

inductive RateAction where
  | notification
  | subscription
  | broadcast
deriving Repr, DecidableEq

structure RateLimitRow where
  id : String
  appId : String
  action : RateAction
  count : Nat
  windowStart : Nat
deriving Repr, DecidableEq

structure RateLimitResult where
  allowed : Bool
  current : Nat
  limit : Nat
deriving Repr, DecidableEq

/-! ## Rate limiter (src/lib/db.ts, `checkAndIncrementRateLimit`) -/

/-- The UNIQUE(app_id, action, window_start) key of `rate_limit_logs`. -/
def rateKeyMatch (appId : String) (action : RateAction) (ws : Nat)
    (r : RateLimitRow) : Bool :=
  r.appId == appId && decide (r.action = action) && r.windowStart == ws

def findRateRow (rows : List RateLimitRow) (appId : String) (action : RateAction)
    (ws : Nat) : Option RateLimitRow :=
  rows.find? (rateKeyMatch appId action ws)

/-- ON CONFLICT DO UPDATE: bump the count of the (unique) conflicting row. -/
def bumpRateRow (appId : String) (action : RateAction) (ws : Nat) :
    List RateLimitRow → List RateLimitRow
  | [] => []
  | r :: rest =>
    if rateKeyMatch appId action ws r then { r with count := r.count + 1 } :: rest
    else r :: bumpRateRow appId action ws rest

/-- Model of `checkAndIncrementRateLimit` (src/lib/db.ts).  `newId` stands for the
freshly generated uuid of the candidate insert row and `now` for `Date.now()`;
the SQL insert-or-increment-and-return is modelled as: if a row with the key
exists, increment its count and read the result back, else append a new row
with count 1.  `allowed = current <= limit` on the returned count. -/
def checkAndIncrementRateLimit (newId : String) (appId : String) (action : RateAction)
    (limit : Nat) (windowMs : Nat) (now : Nat) (rows : List RateLimitRow) :
    RateLimitResult × List RateLimitRow :=
  let windowStart := now / windowMs * windowMs
  let step : Nat × List RateLimitRow :=
    match findRateRow rows appId action windowStart with
    | some r => (r.count + 1, bumpRateRow appId action windowStart rows)
    | none => (1, rows ++ [⟨newId, appId, action, 1, windowStart⟩])
  ({ allowed := decide (step.1 ≤ limit), current := step.1, limit := limit }, step.2)

/-! ## Subscription registry (src/lib/db.ts) -/

structure SubscriptionOptions where
  userId : Option String
  channelId : Option String
  metadata : String
  expirationTime : Option Nat
deriving Repr, DecidableEq

/-- The UNIQUE(app_id, endpoint) natural key of `subscriptions`. -/
def subKeyMatch (appId endpoint : String) (s : Subscription) : Bool :=
  s.appId == appId && s.endpoint == endpoint

/-- The DO UPDATE SET clause of the upsert: replace every mutable field of the
existing row (id and created_at are left untouched). -/
def applySubUpdate (newRow r : Subscription) : Subscription :=
  { r with p256dh := newRow.p256dh, auth := newRow.auth, userId := newRow.userId,
           channelId := newRow.channelId, metadata := newRow.metadata,
           expiresAt := newRow.expiresAt }

/-- INSERT ... ON CONFLICT (app_id, endpoint) DO UPDATE: update the (unique)
conflicting row in place, else append the new row. -/
def upsertSubRow (newRow : Subscription) : List Subscription → List Subscription
  | [] => [newRow]
  | r :: rest =>
    if subKeyMatch newRow.appId newRow.endpoint r then applySubUpdate newRow r :: rest
    else r :: upsertSubRow newRow rest

/-- Truthiness of `options?.expirationTime` (`... ? new Date(...) : null`) —
JS truthiness, so an expiration time of 0 means no expiry. -/
def expiresAtOf (options : SubscriptionOptions) : Option Nat :=
  match options.expirationTime with
  | some t => if t = 0 then none else some t
  | none => none

/-- The candidate insert row of the upsert (`newId` stands for the freshly
generated uuid, `now` for the row-creation timestamp default). -/
def mkSubRow (newId : String) (now : Nat) (appId endpoint p256dh auth : String)
    (options : SubscriptionOptions) : Subscription :=
  { id := newId, appId := appId, endpoint := endpoint, p256dh := p256dh, auth := auth,
    userId := options.userId, channelId := options.channelId,
    metadata := options.metadata, createdAt := now, expiresAt := expiresAtOf options }

/-- Model of `createSubscription` (src/lib/db.ts): upsert on the natural key,
returning the resulting row. -/
def createSubscription (newId : String) (now : Nat) (appId endpoint p256dh auth : String)
    (options : SubscriptionOptions) (registry : List Subscription) :
    Subscription × List Subscription :=
  let newRow := mkSubRow newId now appId endpoint p256dh auth options
  match registry.find? (subKeyMatch appId endpoint) with
  | some r => (applySubUpdate newRow r, upsertSubRow newRow registry)
  | none => (newRow, upsertSubRow newRow registry)

/-- Model of `getSubscriptionById` (src/lib/db.ts). -/
def getSubscriptionById (id : String) (registry : List Subscription) : Option Subscription :=
  registry.find? (fun s => s.id == id)

/-- JS truthiness of an optional string (the empty string is falsy). -/
def truthyStr : Option String → Bool
  | some s => !s.isEmpty
  | none => false

/-- Fallback `v || d` on an optional numeric option (0 is falsy). -/
def orDefault (v : Option Nat) (d : Nat) : Nat :=
  match v with
  | some n => if n = 0 then d else n
  | none => d

/-- Liveness filter `expires_at IS NULL OR expires_at > NOW()`. -/
def isLive (now : Nat) (s : Subscription) : Bool :=
  match s.expiresAt with
  | none => true
  | some e => decide (now < e)

/-- ORDER BY created_at DESC. -/
def newestFirst (a b : Subscription) : Bool :=
  decide (b.createdAt ≤ a.createdAt)

def insertNewest (x : Subscription) : List Subscription → List Subscription
  | [] => [x]
  | y :: ys => if newestFirst x y then x :: y :: ys else y :: insertNewest x ys

/-- A stable sort realizing ORDER BY created_at DESC. -/
def sortNewestFirst : List Subscription → List Subscription
  | [] => []
  | x :: xs => insertNewest x (sortNewestFirst xs)

structure QueryOptions where
  userId : Option String
  channelId : Option String
  limit : Option Nat
  offset : Option Nat
deriving Repr, DecidableEq

/-- ORDER BY created_at DESC LIMIT .. OFFSET .. applied to a filtered row set. -/
def pageRows (options : QueryOptions) (rows : List Subscription) : List Subscription :=
  ((sortNewestFirst rows).drop (orDefault options.offset 0)).take
    (orDefault options.limit 1000)

/-- Model of `getSubscriptionsByApp` (src/lib/db.ts): four-way branch on which of the
userId/channelId filters are (truthily) present; every branch filters on the
app id and on expiry, orders newest first, and pages. -/
def getSubscriptionsByApp (appId : String) (options : QueryOptions) (now : Nat)
    (registry : List Subscription) : List Subscription :=
  if truthyStr options.userId && truthyStr options.channelId then
    pageRows options (registry.filter (fun s =>
      s.appId == appId && s.userId == options.userId &&
      s.channelId == options.channelId && isLive now s))
  else if truthyStr options.userId then
    pageRows options (registry.filter (fun s =>
      s.appId == appId && s.userId == options.userId && isLive now s))
  else if truthyStr options.channelId then
    pageRows options (registry.filter (fun s =>
      s.appId == appId && s.channelId == options.channelId && isLive now s))
  else
    pageRows options (registry.filter (fun s => s.appId == appId && isLive now s))

/-- Model of `getSubscriptionsByIds` (src/lib/db.ts): SELECT ... WHERE id IN (ids);
note there is no expiry or ownership filter here. -/
def getSubscriptionsByIds (ids : List String) (registry : List Subscription) :
    List Subscription :=
  if ids.isEmpty then [] else registry.filter (fun s => ids.contains s.id)

/-- Model of `deleteSubscription` (src/lib/db.ts): DELETE WHERE id; returns whether a
row was removed. -/
def deleteSubscription (id : String) (registry : List Subscription) :
    Bool × List Subscription :=
  let remaining := registry.filter (fun s => !(s.id == id))
  (decide (remaining.length < registry.length), remaining)

/-! ## Dispatch engine (src/lib/notifications.ts) -/

/-- Outcome of one `webPush.sendNotification` call, as seen by the caller:
a resolved status code, or a rejection carrying an optional status code and
an optional message. -/
inductive DeliveryOutcome where
  | ok (statusCode : Nat)
  | err (statusCode : Option Nat) (message : Option String)
deriving Repr, DecidableEq

/-- Whole-call failures of `sendNotifications`: the thrown rate-limit error,
or a backing-store rejection that escapes (e.g. a failing pruning DELETE). -/
inductive DispatchError where
  | rateLimitExceeded
  | internalError
deriving Repr, DecidableEq

structure SendResult where
  subscriptionId : String
  success : Bool
  statusCode : Option Nat
  error : Option String
deriving Repr, DecidableEq

structure BatchSendResult where
  sent : Nat
  failed : Nat
  total : Nat
  results : List SendResult
deriving Repr, DecidableEq

structure SendRequest where
  payload : String
  userId : Option String
  channelId : Option String
  subscriptionIds : Option (List String)
deriving Repr, DecidableEq

/-- One transport invocation as constructed by `sendToSubscription`: the
subscription's endpoint, its tolerantly re-normalized keys, the tenant's own
vapid identity, and the serialized payload. -/
structure DeliveryAttempt where
  subscriptionId : String
  endpoint : String
  p256dh : String
  auth : String
  vapidPublicKey : String
  payload : String
deriving Repr, DecidableEq

/-- The observable state threaded through a `Send` call: the subscriptions
table, the rate-limit table, and the log of transport invocations made. -/
@[ext]
structure DispatchState where
  registry : List Subscription
  rate : List RateLimitRow
  attempts : List DeliveryAttempt
deriving Repr, DecidableEq

def mkAttempt (app : App) (payload : String) (s : Subscription) : DeliveryAttempt :=
  { subscriptionId := s.id, endpoint := s.endpoint,
    p256dh := normalizeBase64UrlMaybe s.p256dh,
    auth := normalizeBase64UrlMaybe s.auth,
    vapidPublicKey := app.vapidPublicKey, payload := payload }

/-- Gone test `err.statusCode === 404 || err.statusCode === 410`. -/
def isGoneStatus (status : Option Nat) : Bool :=
  status == some 404 || status == some 410

/-- Model of `sendToSubscription` (src/lib/notifications.ts).  `transport` is the
outcome oracle for the push service; `deleteFails` says whether the registry
DELETE for a given subscription id rejects with a store error — that call
sits inside the catch block with no try of its own, so its rejection escapes
`sendToSubscription`. -/
def sendToSubscription (transport : Subscription → DeliveryOutcome)
    (deleteFails : String → Bool) (app : App) (payload : String)
    (sub : Subscription) (st : DispatchState) :
    Except DispatchError SendResult × DispatchState :=
  let st1 : DispatchState :=
    { st with attempts := st.attempts ++ [mkAttempt app payload sub] }
  match transport sub with
  | .ok code =>
    (.ok { subscriptionId := sub.id, success := true, statusCode := some code,
           error := none }, st1)
  | .err status msg =>
    if isGoneStatus status then
      if deleteFails sub.id then (.error .internalError, st1)
      else
        (.ok { subscriptionId := sub.id, success := false, statusCode := status,
               error := some (msg.getD "Push failed") },
         { st1 with registry := (deleteSubscription sub.id st1.registry).2 })
    else
      (.ok { subscriptionId := sub.id, success := false, statusCode := status,
             error := some (msg.getD "Push failed") }, st1)

/-- One `Promise.all` batch: every delivery in the batch runs (so every side
effect lands), and the first rejection, if any, becomes the batch's
rejection. -/
def processBatch (transport : Subscription → DeliveryOutcome)
    (deleteFails : String → Bool) (app : App) (payload : String) :
    List Subscription → DispatchState →
    Except DispatchError (List SendResult) × DispatchState
  | [], st => (.ok [], st)
  | sub :: rest, st =>
    let step := sendToSubscription transport deleteFails app payload sub st
    let tail := processBatch transport deleteFails app payload rest step.2
    match step.1, tail.1 with
    | .ok r, .ok rs => (.ok (r :: rs), tail.2)
    | .error e, _ => (.error e, tail.2)
    | .ok _, .error e => (.error e, tail.2)

/-- The batch loop: batch N+1 only starts after batch N completed without a
rejection. -/
def processBatches (transport : Subscription → DeliveryOutcome)
    (deleteFails : String → Bool) (app : App) (payload : String) :
    List (List Subscription) → DispatchState →
    Except DispatchError (List SendResult) × DispatchState
  | [], st => (.ok [], st)
  | batch :: more, st =>
    match processBatch transport deleteFails app payload batch st with
    | (.ok rs, st1) =>
      match processBatches transport deleteFails app payload more st1 with
      | (.ok rs2, st2) => (.ok (rs ++ rs2), st2)
      | (.error e, st2) => (.error e, st2)
    | (.error e, st1) => (.error e, st1)

/-- Recursion core of `chunksOf`; `fuel` only bounds the recursion depth and
any value at least `l.length` produces the full chunk list when `n > 0`. -/
def chunksOfGo (n : Nat) : Nat → List Subscription → List (List Subscription)
  | _, [] => []
  | 0, _ :: _ => []
  | fuel + 1, x :: xs => (x :: xs).take n :: chunksOfGo n fuel ((x :: xs).drop n)

/-- Batching `subscriptions.slice(i, i + CONCURRENCY_LIMIT)` for i = 0, 50, 100, ... -/
def chunksOf (n : Nat) (l : List Subscription) : List (List Subscription) :=
  chunksOfGo n l.length l

/-- Target resolution inside `sendNotifications`: explicit ids (filtered to
the caller's app) take precedence over the userId/channelId query. -/
def resolveTargets (app : App) (req : SendRequest) (now : Nat)
    (registry : List Subscription) : List Subscription :=
  match req.subscriptionIds with
  | some ids =>
    if ids.length > 0 then
      (getSubscriptionsByIds ids registry).filter (fun s => s.appId == app.id)
    else
      getSubscriptionsByApp app.id ⟨req.userId, req.channelId, none, none⟩ now registry
  | none =>
    getSubscriptionsByApp app.id ⟨req.userId, req.channelId, none, none⟩ now registry

/-- The aggregation step at the end of `sendNotifications`: count successes
and failures over the full per-target detail; a rejection of the delivery
loop propagates unchanged. -/
def finishSend (total : Nat)
    (run : Except DispatchError (List SendResult) × DispatchState) :
    Except DispatchError BatchSendResult × DispatchState :=
  match run with
  | (.ok results, st2) =>
    (.ok { sent := (results.filter (fun r => r.success)).length,
           failed := (results.filter (fun r => !r.success)).length,
           total := total, results := results }, st2)
  | (.error e, st2) => (.error e, st2)

/-- Model of `sendNotifications` (src/lib/notifications.ts): resolve targets; return
the zero result when there are none; otherwise one rate-limit
check-and-increment (broadcast when more than one target) against
`maxNotificationsPerMinute` with the default 60000 ms window, failing with
`RateLimitExceeded` when not allowed; then the batched delivery loop with
CONCURRENCY_LIMIT = 50 and the aggregate counts. -/
def sendNotifications (transport : Subscription → DeliveryOutcome)
    (deleteFails : String → Bool) (rateRowId : String) (app : App)
    (req : SendRequest) (now : Nat) (st : DispatchState) :
    Except DispatchError BatchSendResult × DispatchState :=
  let subs := resolveTargets app req now st.registry
  if subs.length = 0 then
    (.ok { sent := 0, failed := 0, total := 0, results := [] }, st)
  else
    let action : RateAction := if subs.length > 1 then .broadcast else .notification
    let check := checkAndIncrementRateLimit rateRowId app.id action
      app.rateLimit.maxNotificationsPerMinute 60000 now st.rate
    let st1 : DispatchState := { st with rate := check.2 }
    if !check.1.allowed then (.error .rateLimitExceeded, st1)
    else
      finishSend subs.length
        (processBatches transport deleteFails app req.payload (chunksOf 50 subs) st1)

/-! ## Delivery loop properties -/

/-- Whether an outcome is the permanent "endpoint gone" case (404/410). -/
def isGoneOutcome : DeliveryOutcome → Bool
  | .ok _ => false
  | .err status _ => isGoneStatus status

/-- The per-subscription record produced by `sendToSubscription` for a given
transport outcome. -/
def resultOf (transport : Subscription → DeliveryOutcome) (sub : Subscription) :
    SendResult :=
  match transport sub with
  | .ok code =>
    { subscriptionId := sub.id, success := true, statusCode := some code, error := none }
  | .err status msg =>
    { subscriptionId := sub.id, success := false, statusCode := status,
      error := some (msg.getD "Push failed") }

/-- Ids of the targets whose delivery came back permanently gone. -/
def goneIds (transport : Subscription → DeliveryOutcome)
    (subs : List Subscription) : List String :=
  (subs.filter (fun t => isGoneOutcome (transport t))).map (fun t => t.id)

def demoSubOk : Subscription :=
  ⟨"sOk", "appD", "https://e/ok", "k", "a", none, none, "", 30, none⟩

def demoSubGone : Subscription :=
  ⟨"sGone", "appD", "https://e/gone", "k", "a", none, none, "", 20, none⟩

def demoSubTr : Subscription :=
  ⟨"sTr", "appD", "https://e/tr", "k", "a", none, none, "", 10, none⟩

def demoApp : App := ⟨"appD", "vp", "vk", ⟨60, 100, 100⟩⟩

def demoState : DispatchState := ⟨[demoSubOk, demoSubGone, demoSubTr], [], []⟩

/-- A transport oracle for the witness scenario: one success, one permanent
410 failure, one transient 500 failure. -/
def demoTransport (s : Subscription) : DeliveryOutcome :=
  if s.id == "sGone" then .err (some 410) (some "Gone")
  else if s.id == "sTr" then .err (some 500) (some "boom")
  else .ok 201

def demoReq : SendRequest := ⟨"payload", none, none, none⟩

/-! ## Properties of the encoding pipeline -/

theorem b64UrlChar_spec : ∀ v, v < 64 →
    b64Val (mapDashChar (b64UrlChar v)) = v ∧ isB64AlphaChar (b64UrlChar v) = true ∧
    isWsChar (b64UrlChar v) = false ∧ (b64UrlChar v == '=') = false := by decide

theorem b64StdChar_spec : ∀ v, v < 64 →
    b64Val (mapDashChar (b64StdChar v)) = v ∧ isB64AlphaChar (b64StdChar v) = true ∧
    isWsChar (b64StdChar v) = false ∧ (b64StdChar v == '=') = false := by decide

theorem sextetsOfBytes_lt : ∀ bs : List Nat, (∀ b ∈ bs, b < 256) →
    ∀ s ∈ sextetsOfBytes bs, s < 64
  | [], _ => by simp [sextetsOfBytes]
  | [b1], h => by
    have h1 := h b1 (by simp)
    simp only [sextetsOfBytes, List.mem_cons, List.not_mem_nil, or_false]
    omega
  | [b1, b2], h => by
    have h1 := h b1 (by simp)
    have h2 := h b2 (by simp)
    simp only [sextetsOfBytes, List.mem_cons, List.not_mem_nil, or_false]
    omega
  | b1 :: b2 :: b3 :: rest, h => by
    have h1 := h b1 (by simp)
    have h2 := h b2 (by simp)
    have h3 := h b3 (by simp)
    have ih := sextetsOfBytes_lt rest (fun b hb => h b (by simp [hb]))
    intro s hs
    simp only [sextetsOfBytes, List.mem_cons] at hs
    rcases hs with h' | h' | h' | h' | h'
    · omega
    · omega
    · omega
    · omega
    · exact ih s h'

theorem bytesOfSextets_sextetsOfBytes : ∀ bs : List Nat, (∀ b ∈ bs, b < 256) →
    bytesOfSextets (sextetsOfBytes bs) = bs
  | [], _ => rfl
  | [b1], h => by
    have h1 := h b1 (by simp)
    simp only [sextetsOfBytes, bytesOfSextets, List.cons.injEq, and_true]
    omega
  | [b1, b2], h => by
    have h1 := h b1 (by simp)
    have h2 := h b2 (by simp)
    simp only [sextetsOfBytes, bytesOfSextets, List.cons.injEq, and_true]
    omega
  | b1 :: b2 :: b3 :: rest, h => by
    have h1 := h b1 (by simp)
    have h2 := h b2 (by simp)
    have h3 := h b3 (by simp)
    have ih := bytesOfSextets_sextetsOfBytes rest (fun b hb => h b (by simp [hb]))
    simp only [sextetsOfBytes, bytesOfSextets, ih, List.cons.injEq, and_true]
    omega

theorem sextetsOfBytes_eq_nil_iff : ∀ bs : List Nat, sextetsOfBytes bs = [] ↔ bs = []
  | [] => by simp [sextetsOfBytes]
  | [b1] => by simp [sextetsOfBytes]
  | [b1, b2] => by simp [sextetsOfBytes]
  | b1 :: b2 :: b3 :: rest => by simp [sextetsOfBytes]

theorem sextetsOfBytes_length_mod : ∀ bs : List Nat, (sextetsOfBytes bs).length % 4 ≠ 1
  | [] => by simp [sextetsOfBytes]
  | [b1] => by simp [sextetsOfBytes]
  | [b1, b2] => by simp [sextetsOfBytes]
  | b1 :: b2 :: b3 :: rest => by
    have ih := sextetsOfBytes_length_mod rest
    simp only [sextetsOfBytes, List.length_cons]
    omega

theorem takeWhile_eq_nil_of_none {α : Type} {p : α → Bool} :
    ∀ {l : List α}, (∀ x ∈ l, p x = false) → l.takeWhile p = []
  | [], _ => rfl
  | a :: l, h => by simp [List.takeWhile_cons, h a (by simp)]

/-- The canonical base64url encoding of a valid byte list decodes back to
exactly those bytes under the loose decoder. -/
theorem decodeLoose_encodeUrl (bs : List Nat) (hlt : ∀ b ∈ bs, b < 256) :
    decodeLoose ((sextetsOfBytes bs).map b64UrlChar) = bs := by
  have hss := sextetsOfBytes_lt bs hlt
  have hdata : dataChars ((sextetsOfBytes bs).map b64UrlChar)
      = (sextetsOfBytes bs).map b64UrlChar := by
    rw [dataChars, List.takeWhile_eq_self_iff]
    intro c hc
    rcases List.mem_map.mp hc with ⟨v, hv, rfl⟩
    simpa using (b64UrlChar_spec v (hss v hv)).2.2.2
  rw [decodeLoose, hdata, List.map_map]
  have hmap : (sextetsOfBytes bs).map ((fun c => b64Val (mapDashChar c)) ∘ b64UrlChar)
      = (sextetsOfBytes bs).map id := by
    apply List.map_congr_left
    intro v hv
    exact (b64UrlChar_spec v (hss v hv)).1
  rw [hmap, List.map_id]
  exact bytesOfSextets_sextetsOfBytes bs hlt

/-- The strict pipeline accepts the canonical unpadded base64url encoding of
any nonempty valid byte list and decodes it back to those bytes. -/
theorem strictDecodeBytes_encodeUrl (bs : List Nat) (hne : bs ≠ [])
    (hlt : ∀ b ∈ bs, b < 256) :
    strictDecodeBytes (encodeBase64url bs) = some bs := by
  have hss := sextetsOfBytes_lt bs hlt
  set cs : List Char := (sextetsOfBytes bs).map b64UrlChar with hcs
  have hchars : ∀ c ∈ cs, isWsChar c = false ∧ isB64AlphaChar c = true ∧ (c == '=') = false := by
    intro c hc
    rcases List.mem_map.mp hc with ⟨v, hv, rfl⟩
    have := b64UrlChar_spec v (hss v hv)
    exact ⟨this.2.2.1, this.2.1, this.2.2.2⟩
  have hstrip : stripWs cs = cs := by
    rw [stripWs, List.filter_eq_self]
    intro c hc
    simp [(hchars c hc).1]
  have hcsne : cs ≠ [] := by
    simp only [hcs, ne_eq, List.map_eq_nil_iff]
    rw [sextetsOfBytes_eq_nil_iff]
    exact hne
  have hpad : padCount cs = 0 := by
    rw [padCount, takeWhile_eq_nil_of_none, List.length_nil]
    intro c hc
    exact (hchars c (List.mem_reverse.mp hc)).2.2
  have hshape : shapeOk cs = true := by
    rw [shapeOk]
    simp only [hpad, Nat.sub_zero, List.take_length, Bool.and_eq_true, decide_eq_true_eq]
    refine ⟨⟨by omega, by simp [hcsne]⟩, ?_⟩
    rw [List.all_eq_true]
    intro c hc
    exact (hchars c hc).2.1
  have hdec : decodeLoose cs = bs := decodeLoose_encodeUrl bs hlt
  rw [strictDecodeBytes]
  simp only [encodeBase64url, ← hcs, hstrip, hshape, hdec]
  simp [hcsne, hne]

/-- The strict pipeline accepts the standard padded base64 encoding of any
nonempty valid byte list and decodes it back to those bytes. -/
theorem strictDecodeBytes_encodePadded (bs : List Nat) (hne : bs ≠ [])
    (hlt : ∀ b ∈ bs, b < 256) :
    strictDecodeBytes (encodeBase64Padded bs) = some bs := by
  have hss := sextetsOfBytes_lt bs hlt
  set data : List Char := (sextetsOfBytes bs).map b64StdChar with hdata
  set k : Nat := (4 - data.length % 4) % 4 with hk
  have hchars : ∀ c ∈ data, isWsChar c = false ∧ isB64AlphaChar c = true ∧ (c == '=') = false := by
    intro c hc
    rcases List.mem_map.mp hc with ⟨v, hv, rfl⟩
    have := b64StdChar_spec v (hss v hv)
    exact ⟨this.2.2.1, this.2.1, this.2.2.2⟩
  set cs : List Char := data ++ List.replicate k '=' with hcs
  have hdatane : data ≠ [] := by
    simp only [hdata, ne_eq, List.map_eq_nil_iff]
    rw [sextetsOfBytes_eq_nil_iff]
    exact hne
  have hk2 : k ≤ 2 := by
    have := sextetsOfBytes_length_mod bs
    have hlen : data.length = (sextetsOfBytes bs).length := by
      rw [hdata, List.length_map]
    omega
  have hstrip : stripWs cs = cs := by
    rw [stripWs, List.filter_eq_self]
    intro c hc
    rcases List.mem_append.mp hc with h | h
    · simp [(hchars c h).1]
    · have : c = '=' := List.eq_of_mem_replicate h
      subst this
      decide
  have hcsne : cs ≠ [] := by
    simp [hcs, hdatane]
  have hpad : padCount cs = k := by
    rw [padCount, hcs, List.reverse_append, List.reverse_replicate, List.takeWhile_append]
    rw [List.takeWhile_eq_self_iff.mpr (fun c hc => by
      have : c = '=' := List.eq_of_mem_replicate hc
      simp [this])]
    simp only [List.length_replicate, if_pos rfl]
    rw [takeWhile_eq_nil_of_none (fun c hc => (hchars c (List.mem_reverse.mp hc)).2.2)]
    simp [hk]
  have hbody : cs.take (cs.length - k) = data := by
    have hlen : cs.length = data.length + k := by
      simp [hcs]
    rw [hlen, Nat.add_sub_cancel, hcs, List.take_left]
  have hshape : shapeOk cs = true := by
    rw [shapeOk]
    simp only [hpad, hbody, Bool.and_eq_true, decide_eq_true_eq]
    refine ⟨⟨hk2, by simp [hdatane]⟩, ?_⟩
    rw [List.all_eq_true]
    intro c hc
    exact (hchars c hc).2.1
  have hdc : dataChars cs = data := by
    rw [dataChars, hcs, List.takeWhile_append]
    rw [List.takeWhile_eq_self_iff.mpr (fun c hc => by simpa using (hchars c hc).2.2)]
    simp only [if_pos rfl]
    rw [takeWhile_eq_nil_of_none (fun c hc => by
      have : c = '=' := List.eq_of_mem_replicate hc
      simp [this])]
    simp
  have hdec : decodeLoose cs = bs := by
    rw [decodeLoose, hdc, hdata, List.map_map]
    have hmap : (sextetsOfBytes bs).map ((fun c => b64Val (mapDashChar c)) ∘ b64StdChar)
        = (sextetsOfBytes bs).map id := by
      apply List.map_congr_left
      intro v hv
      exact (b64StdChar_spec v (hss v hv)).1
    rw [hmap, List.map_id]
    exact bytesOfSextets_sextetsOfBytes bs hlt
  rw [strictDecodeBytes]
  simp only [encodeBase64Padded, ← hdata, ← hk, ← hcs, hstrip, hshape, hdec]
  simp [hcsne, hne]

theorem b64Val_lt (c : Char) : b64Val c < 64 := by
  rw [b64Val]
  split_ifs <;> omega

theorem bytesOfSextets_lt : ∀ ss : List Nat, (∀ s ∈ ss, s < 64) →
    ∀ b ∈ bytesOfSextets ss, b < 256
  | [], _ => by simp [bytesOfSextets]
  | [a], _ => by simp [bytesOfSextets]
  | [a, b], h => by
    have ha := h a (by simp)
    have hb := h b (by simp)
    simp only [bytesOfSextets, List.mem_cons, List.not_mem_nil, or_false]
    omega
  | [a, b, c], h => by
    have ha := h a (by simp)
    have hb := h b (by simp)
    have hc := h c (by simp)
    simp only [bytesOfSextets, List.mem_cons, List.not_mem_nil, or_false]
    omega
  | a :: b :: c :: d :: rest, h => by
    have ha := h a (by simp)
    have hb := h b (by simp)
    have hc := h c (by simp)
    have hd := h d (by simp)
    have ih := bytesOfSextets_lt rest (fun s hs => h s (by simp [hs]))
    intro x hx
    simp only [bytesOfSextets, List.mem_cons] at hx
    rcases hx with h' | h' | h' | h'
    · omega
    · omega
    · omega
    · exact ih x h'

/-- Every byte list produced by the strict pipeline is nonempty, consists of
values below 256, and equals the loose decode of the whitespace-stripped input. -/
theorem strictDecodeBytes_sound {s : String} {bs : List Nat}
    (h : strictDecodeBytes s = some bs) :
    bs = decodeLoose (stripWs s.data) ∧ bs ≠ [] ∧ ∀ b ∈ bs, b < 256 := by
  rw [strictDecodeBytes] at h
  split_ifs at h with h1 h2 h3
  · have hbs : decodeLoose (stripWs s.data) = bs := Option.some.inj h
    refine ⟨hbs.symm, ?_, ?_⟩
    · intro hc
      rw [List.isEmpty_iff] at h3
      exact h3 (hbs.trans hc)
    · intro b hb
      rw [← hbs] at hb
      rw [decodeLoose] at hb
      refine bytesOfSextets_lt _ ?_ b hb
      intro v hv
      rcases List.mem_map.mp hv with ⟨c, _, rfl⟩
      exact b64Val_lt _

/-- The tolerant normalizer is the strict normalizer with the original input
as its fallback value. -/
theorem normalizeBase64UrlMaybe_eq (s : String) :
    normalizeBase64UrlMaybe s = (normalizeBase64Url s).getD s := by
  rw [normalizeBase64UrlMaybe, normalizeBase64Url, strictDecodeBytes]
  split_ifs <;> simp

/-- The pipeline looks at the input only through its whitespace-stripped
character list. -/
theorem strictDecodeBytes_congr {s t : String}
    (h : stripWs s.data = stripWs t.data) :
    strictDecodeBytes s = strictDecodeBytes t := by
  rw [strictDecodeBytes, strictDecodeBytes, h]

/-- C7: a candidate `publicKey` is accepted by the strict validator iff its
decoded byte length is exactly 65, and a candidate `authSecret` is accepted
iff its decoded byte length is at least 16 (src/lib/types.ts, `P256dhKey` and
`AuthKey`). -/
theorem key_material_length_gate (s : String) (bs : List Nat)
    (h : strictDecodeBytes s = some bs) :
    (p256dhAccepted s = true ↔ bs.length = 65) ∧
    (authKeyAccepted s = true ↔ 16 ≤ bs.length) := by
  obtain ⟨-, -, hlt⟩ := strictDecodeBytes_sound h
  have hnorm : normalizeBase64Url s = some (encodeBase64url bs) := by
    rw [normalizeBase64Url, h]
    rfl
  have hre : decodeBase64urlBytes (encodeBase64url bs) = bs := by
    rw [decodeBase64urlBytes, encodeBase64url]
    exact decodeLoose_encodeUrl bs hlt
  constructor
  · rw [p256dhAccepted, hnorm]
    simp [hre]
  · rw [authKeyAccepted, hnorm]
    simp [hre]

/-- C7 witness: an input decoding to 65 bytes is accepted as a `publicKey`;
inputs decoding to 64 or 66 bytes are rejected; an input decoding to 16 bytes
is accepted as an `authSecret` and one decoding to 15 bytes is rejected. -/
theorem key_material_length_gate_witness :
    p256dhAccepted (String.mk (List.replicate 87 'A')) = true ∧
    p256dhAccepted (String.mk (List.replicate 86 'A')) = false ∧
    p256dhAccepted (String.mk (List.replicate 88 'A')) = false ∧
    authKeyAccepted (String.mk (List.replicate 22 'A')) = true ∧
    authKeyAccepted (String.mk (List.replicate 20 'A')) = false :=
  ⟨(key_material_length_gate (String.mk (List.replicate 87 'A')) (List.replicate 65 0)
      (by decide)).1.mpr (by decide),
   by decide, by decide, by decide, by decide⟩

/-- C8: for every nonempty byte string, the standard padded encoding and the
canonical base64url encoding normalize to the same canonical value (the
unpadded base64url form), normalization is insensitive to whitespace, and
normalizing an already-canonical value returns it unchanged — both in the
strict validator and in the tolerant pre-delivery normalizer. -/
theorem normalize_round_trip (bs : List Nat) (hne : bs ≠ [])
    (hlt : ∀ b ∈ bs, b < 256) :
    normalizeBase64Url (encodeBase64Padded bs) = normalizeBase64Url (encodeBase64url bs) ∧
    normalizeBase64Url (encodeBase64url bs) = some (encodeBase64url bs) ∧
    normalizeBase64UrlMaybe (encodeBase64url bs) = encodeBase64url bs ∧
    ∀ s : String, stripWs s.data = stripWs (encodeBase64Padded bs).data →
      normalizeBase64Url s = some (encodeBase64url bs) := by
  have hurl := strictDecodeBytes_encodeUrl bs hne hlt
  have hpadded := strictDecodeBytes_encodePadded bs hne hlt
  have h2 : normalizeBase64Url (encodeBase64url bs) = some (encodeBase64url bs) := by
    rw [normalizeBase64Url, hurl]
    rfl
  have h1 : normalizeBase64Url (encodeBase64Padded bs) = some (encodeBase64url bs) := by
    rw [normalizeBase64Url, hpadded]
    rfl
  refine ⟨h1.trans h2.symm, h2, ?_, ?_⟩
  · rw [normalizeBase64UrlMaybe_eq, h2, Option.getD_some]
  · intro s hs
    rw [normalizeBase64Url, strictDecodeBytes_congr hs, hpadded]
    rfl

/-- C8 witness: the padded standard encoding of the bytes 77, 97 normalizes to
the same canonical value as their base64url encoding, and re-normalizing that
canonical value is a no-op. -/
theorem normalize_round_trip_witness :
    normalizeBase64Url "TWE=" = some "TWE" ∧
    normalizeBase64Url "TWE" = some "TWE" ∧
    normalizeBase64UrlMaybe "TWE" = "TWE" := by
  have h := normalize_round_trip [77, 97] (by decide) (by decide)
  have hp : encodeBase64Padded [77, 97] = "TWE=" := by decide
  have hu : encodeBase64url [77, 97] = "TWE" := by decide
  refine ⟨?_, ?_, ?_⟩
  · rw [← hp, ← hu]
    exact h.1.trans h.2.1
  · rw [← hu]
    exact h.2.1
  · rw [← hu]
    exact h.2.2.1

/-- C10: the tolerant pre-delivery normalizer is total and never rejects —
when the whitespace-stripped input is empty, fails the combined
alphabet-and-padding shape, or decodes to zero bytes, the original input is
returned verbatim; otherwise the canonical unpadded base64url re-encoding of
the decoded bytes is returned (src/lib/notifications.ts,
`normalizeBase64UrlMaybe`). -/
theorem tolerant_normalizer_total (s : String) :
    normalizeBase64UrlMaybe s = (normalizeBase64Url s).getD s ∧
    (strictDecodeBytes s = none → normalizeBase64UrlMaybe s = s) ∧
    ∀ bs, strictDecodeBytes s = some bs →
      normalizeBase64UrlMaybe s = encodeBase64url bs := by
  refine ⟨normalizeBase64UrlMaybe_eq s, ?_, ?_⟩
  · intro h
    rw [normalizeBase64UrlMaybe_eq, normalizeBase64Url, h]
    rfl
  · intro bs h
    rw [normalizeBase64UrlMaybe_eq, normalizeBase64Url, h]
    rfl

/-- C10 witness: a stored value that is not valid key material (here `"!!"`)
is passed through verbatim, and a padded stored value is re-encoded to its
canonical form. -/
theorem tolerant_normalizer_total_witness :
    normalizeBase64UrlMaybe "!!" = "!!" ∧ normalizeBase64UrlMaybe "QQ==" = "QQ" :=
  ⟨(tolerant_normalizer_total "!!").2.1 (by decide),
   ((tolerant_normalizer_total "QQ==").2.2 [65] (by decide)).trans (by decide)⟩

/-! ## Rate limiter properties -/

theorem rateKeyMatch_iff {appId : String} {action : RateAction} {ws : Nat}
    {r : RateLimitRow} :
    rateKeyMatch appId action ws r = true ↔
      r.appId = appId ∧ r.action = action ∧ r.windowStart = ws := by
  simp [rateKeyMatch, and_assoc]

theorem rateKeyMatch_count {appId : String} {action : RateAction} {ws : Nat}
    {r : RateLimitRow} {c : Nat} :
    rateKeyMatch appId action ws { r with count := c } = rateKeyMatch appId action ws r :=
  rfl

theorem findRateRow_bump_self (appId : String) (action : RateAction) (ws : Nat) :
    ∀ (rows : List RateLimitRow) (r : RateLimitRow),
      findRateRow rows appId action ws = some r →
      findRateRow (bumpRateRow appId action ws rows) appId action ws
        = some { r with count := r.count + 1 }
  | [], r, h => by simp [findRateRow] at h
  | a :: rest, r, h => by
    by_cases ha : rateKeyMatch appId action ws a
    · rw [findRateRow, List.find?_cons_of_pos _ ha] at h
      obtain rfl : a = r := Option.some.inj h
      rw [bumpRateRow, if_pos ha, findRateRow, List.find?_cons_of_pos]
      rw [rateKeyMatch_count]
      exact ha
    · rw [findRateRow, List.find?_cons_of_neg _ (by simpa using ha)] at h
      rw [bumpRateRow, if_neg ha, findRateRow, List.find?_cons_of_neg _ (by simpa using ha)]
      exact findRateRow_bump_self appId action ws rest r h

theorem findRateRow_bump_other {appId : String} {action : RateAction} {ws : Nat}
    {appId2 : String} {action2 : RateAction} {ws2 : Nat}
    (hne : ¬(appId2 = appId ∧ action2 = action ∧ ws2 = ws)) :
    ∀ rows : List RateLimitRow,
      findRateRow (bumpRateRow appId action ws rows) appId2 action2 ws2
        = findRateRow rows appId2 action2 ws2
  | [] => rfl
  | a :: rest => by
    by_cases ha : rateKeyMatch appId action ws a
    · have ha2 : rateKeyMatch appId2 action2 ws2 a = false := by
        rcases Bool.eq_false_or_eq_true (rateKeyMatch appId2 action2 ws2 a) with h | h
        case inl =>
          obtain ⟨e1, e2, e3⟩ := rateKeyMatch_iff.mp h
          obtain ⟨f1, f2, f3⟩ := rateKeyMatch_iff.mp ha
          exact absurd ⟨by rw [← e1, f1], by rw [← e2, f2], by rw [← e3, f3]⟩ hne
        case inr => exact h
      rw [bumpRateRow, if_pos ha, findRateRow, findRateRow,
        List.find?_cons_of_neg _ (by simp [rateKeyMatch_count, ha2]),
        List.find?_cons_of_neg _ (by simp [ha2])]
    · rw [bumpRateRow, if_neg ha]
      by_cases ha2 : rateKeyMatch appId2 action2 ws2 a
      · rw [findRateRow, findRateRow, List.find?_cons_of_pos _ ha2,
          List.find?_cons_of_pos _ ha2]
      · rw [findRateRow, findRateRow, List.find?_cons_of_neg _ (by simpa using ha2),
          List.find?_cons_of_neg _ (by simpa using ha2)]
        exact findRateRow_bump_other hne rest

/-- C1: `checkAndIncrementRateLimit` aligns the window to
`floor(now / windowMs) * windowMs`, inserts a count-1 row when no row exists
for (tenant, action, windowStart) and increments the existing row's count
otherwise, returns `allowed = (resulting count <= limit)`, performs the
increment even when the result exceeds the limit, and touches no other
window's row (src/lib/db.ts). -/
theorem rate_limiter_spec (newId appId : String) (action : RateAction)
    (limit windowMs now : Nat) (rows : List RateLimitRow) :
    (checkAndIncrementRateLimit newId appId action limit windowMs now rows).1.current
        = (match findRateRow rows appId action (now / windowMs * windowMs) with
           | some r => r.count + 1
           | none => 1) ∧
    (∃ rowId,
      findRateRow (checkAndIncrementRateLimit newId appId action limit windowMs now rows).2
          appId action (now / windowMs * windowMs)
        = some ⟨rowId, appId, action,
            (checkAndIncrementRateLimit newId appId action limit windowMs now rows).1.current,
            now / windowMs * windowMs⟩) ∧
    ((checkAndIncrementRateLimit newId appId action limit windowMs now rows).1.allowed
        = decide ((checkAndIncrementRateLimit newId appId action limit windowMs now rows).1.current
            ≤ limit)) ∧
    ∀ (appId2 : String) (action2 : RateAction) (ws2 : Nat),
      ¬(appId2 = appId ∧ action2 = action ∧ ws2 = now / windowMs * windowMs) →
      findRateRow (checkAndIncrementRateLimit newId appId action limit windowMs now rows).2
          appId2 action2 ws2
        = findRateRow rows appId2 action2 ws2 := by
  rw [checkAndIncrementRateLimit]
  rcases hfind : findRateRow rows appId action (now / windowMs * windowMs) with _ | r
  · refine ⟨by simp [hfind], ⟨newId, ?_⟩, by simp [hfind], ?_⟩
    · simp only [hfind]
      rw [findRateRow, List.find?_append]
      rw [findRateRow] at hfind
      rw [hfind, Option.none_or]
      exact List.find?_cons_of_pos _ (rateKeyMatch_iff.mpr ⟨rfl, rfl, rfl⟩)
    · intro appId2 action2 ws2 hne
      simp only [hfind]
      rw [findRateRow, List.find?_append]
      have hnew : rateKeyMatch appId2 action2 ws2
          (⟨newId, appId, action, 1, now / windowMs * windowMs⟩ : RateLimitRow) = false := by
        rcases Bool.eq_false_or_eq_true (rateKeyMatch appId2 action2 ws2
          ⟨newId, appId, action, 1, now / windowMs * windowMs⟩) with h | h
        · obtain ⟨e1, e2, e3⟩ := rateKeyMatch_iff.mp h
          exact absurd ⟨e1.symm ▸ rfl, e2.symm ▸ rfl, e3.symm ▸ rfl⟩ hne
        · exact h
      simp [findRateRow, hnew]
  · have hkey := rateKeyMatch_iff.mp (List.find?_some hfind)
    refine ⟨by simp [hfind], ⟨r.id, ?_⟩, by simp [hfind], ?_⟩
    · simp only [hfind]
      rw [findRateRow_bump_self appId action (now / windowMs * windowMs) rows r hfind]
      obtain ⟨e1, e2, e3⟩ := hkey
      cases r
      simp_all
    · intro appId2 action2 ws2 hne
      simp only [hfind]
      exact findRateRow_bump_other hne rows

/-- C1 witness: a first call in an empty table creates the count-1 row on the
aligned window boundary, and leaves a foreign key's lookup unchanged. -/
theorem rate_limiter_spec_witness :
    (∃ rowId,
      findRateRow (checkAndIncrementRateLimit "r1" "a" RateAction.notification
          1 60000 61000 []).2 "a" RateAction.notification 60000
        = some ⟨rowId, "a", RateAction.notification,
            (checkAndIncrementRateLimit "r1" "a" RateAction.notification 1 60000 61000 []).1.current,
            60000⟩) ∧
    findRateRow (checkAndIncrementRateLimit "r1" "a" RateAction.notification
        1 60000 61000 []).2 "b" RateAction.broadcast 0
      = findRateRow [] "b" RateAction.broadcast 0 := by
  have h := rate_limiter_spec "r1" "a" RateAction.notification 1 60000 61000 []
  have harith : 61000 / 60000 * 60000 = 60000 := by norm_num
  constructor
  · have h2 := h.2.1
    rw [harith] at h2
    exact h2
  · exact h.2.2.2 "b" RateAction.broadcast 0 (by simp)

/-! ## Subscription registry properties -/

theorem subKeyMatch_iff {appId endpoint : String} {s : Subscription} :
    subKeyMatch appId endpoint s = true ↔ s.appId = appId ∧ s.endpoint = endpoint := by
  simp [subKeyMatch]

theorem upsertSubRow_append (newRow : Subscription) :
    ∀ (l1 l2 : List Subscription),
      (∀ r ∈ l1, subKeyMatch newRow.appId newRow.endpoint r = false) →
      upsertSubRow newRow (l1 ++ l2) = l1 ++ upsertSubRow newRow l2
  | [], l2, _ => by simp
  | a :: l1, l2, h => by
    rw [List.cons_append, upsertSubRow, if_neg (by simp [h a (by simp)]),
      upsertSubRow_append newRow l1 l2 (fun r hr => h r (by simp [hr])), List.cons_append]

/-- C6: two successive upserts with the same (tenant, endpoint) natural key
leave exactly one subscription row for that key; its mutable fields (secrets,
userId, channelId, metadata, expiry) are the second call's values and its
identifier (and creation time) are the ones created by the first call — no
duplicate row is created (src/lib/db.ts, `createSubscription`). -/
theorem subscription_upsert_idempotent
    (id1 id2 : String) (t1 t2 : Nat) (appId endpoint p1 a1 p2 a2 : String)
    (opt1 opt2 : SubscriptionOptions) (registry : List Subscription)
    (hfresh : ∀ r ∈ registry, subKeyMatch appId endpoint r = false) :
    ((createSubscription id2 t2 appId endpoint p2 a2 opt2
        (createSubscription id1 t1 appId endpoint p1 a1 opt1 registry).2).2.filter
          (subKeyMatch appId endpoint))
      = [(createSubscription id2 t2 appId endpoint p2 a2 opt2
          (createSubscription id1 t1 appId endpoint p1 a1 opt1 registry).2).1] ∧
    (createSubscription id2 t2 appId endpoint p2 a2 opt2
        (createSubscription id1 t1 appId endpoint p1 a1 opt1 registry).2).1
      = { id := id1, appId := appId, endpoint := endpoint, p256dh := p2, auth := a2,
          userId := opt2.userId, channelId := opt2.channelId, metadata := opt2.metadata,
          createdAt := t1, expiresAt := expiresAtOf opt2 } ∧
    (createSubscription id1 t1 appId endpoint p1 a1 opt1 registry).1.id = id1 := by
  have hnone : registry.find? (subKeyMatch appId endpoint) = none :=
    List.find?_eq_none.mpr (fun x hx => by simp [hfresh x hx])
  set row1 := mkSubRow id1 t1 appId endpoint p1 a1 opt1 with hrow1
  set row2 := mkSubRow id2 t2 appId endpoint p2 a2 opt2 with hrow2
  have hstep1 : createSubscription id1 t1 appId endpoint p1 a1 opt1 registry
      = (row1, registry ++ [row1]) := by
    rw [createSubscription, hnone]
    have : upsertSubRow row1 registry = registry ++ [row1] := by
      have := upsertSubRow_append row1 registry [] (fun r hr => hfresh r hr)
      simpa using this
    rw [this]
  have hkey1 : subKeyMatch appId endpoint row1 = true := subKeyMatch_iff.mpr ⟨rfl, rfl⟩
  have hfind1 : (registry ++ [row1]).find? (subKeyMatch appId endpoint) = some row1 := by
    rw [List.find?_append, hnone, Option.none_or, List.find?_cons_of_pos _ hkey1]
  have hstep2 : createSubscription id2 t2 appId endpoint p2 a2 opt2 (registry ++ [row1])
      = (applySubUpdate row2 row1, registry ++ [applySubUpdate row2 row1]) := by
    rw [createSubscription, hfind1]
    have hup : upsertSubRow row2 (registry ++ [row1])
        = registry ++ [applySubUpdate row2 row1] := by
      have hkey1' : subKeyMatch row2.appId row2.endpoint row1 = true := hkey1
      rw [upsertSubRow_append row2 registry [row1] (fun r hr => hfresh r hr),
        upsertSubRow, if_pos hkey1']
    rw [hup]
  have hres : applySubUpdate row2 row1
      = { id := id1, appId := appId, endpoint := endpoint, p256dh := p2, auth := a2,
          userId := opt2.userId, channelId := opt2.channelId, metadata := opt2.metadata,
          createdAt := t1, expiresAt := expiresAtOf opt2 } := rfl
  refine ⟨?_, ?_, ?_⟩
  · rw [hstep1, hstep2]
    simp only [List.filter_append]
    rw [List.filter_eq_nil_iff.mpr (fun r hr => by simp [hfresh r hr])]
    have hkeyu : subKeyMatch appId endpoint (applySubUpdate row2 row1) = true :=
      subKeyMatch_iff.mpr ⟨rfl, rfl⟩
    simp [hkeyu]
  · rw [hstep1, hstep2]
    exact hres
  · rw [hstep1]
    rfl

/-- C6 witness: starting from an empty registry, upserting the same endpoint
twice with different secrets leaves one row carrying the second secrets under
the first call's identifier. -/
theorem subscription_upsert_idempotent_witness :
    ((createSubscription "id2" 2 "app1" "https://x/1" "k2" "s2" ⟨none, none, "", none⟩
        (createSubscription "id1" 1 "app1" "https://x/1" "k1" "s1" ⟨none, none, "", none⟩
          []).2).2.filter (subKeyMatch "app1" "https://x/1"))
      = [{ id := "id1", appId := "app1", endpoint := "https://x/1", p256dh := "k2",
           auth := "s2", userId := none, channelId := none, metadata := "",
           createdAt := 1, expiresAt := none }] := by
  have h := subscription_upsert_idempotent "id1" "id2" 1 2 "app1" "https://x/1"
    "k1" "s1" "k2" "s2" ⟨none, none, "", none⟩ ⟨none, none, "", none⟩ []
    (fun r hr => by simp at hr)
  rw [h.1, h.2.1]
  rfl

/-! ## Dispatch engine properties -/

/-- C3: a `Send` call whose resolved target set is empty returns the
all-zero success result immediately; the state — registry, rate-limit table
(no counter created or incremented), and transport log (no delivery
attempted) — is returned untouched (src/lib/notifications.ts). -/
theorem send_empty_targets (transport : Subscription → DeliveryOutcome)
    (deleteFails : String → Bool) (rateRowId : String) (app : App)
    (req : SendRequest) (now : Nat) (st : DispatchState)
    (h : resolveTargets app req now st.registry = []) :
    sendNotifications transport deleteFails rateRowId app req now st
      = (.ok { sent := 0, failed := 0, total := 0, results := [] }, st) := by
  rw [sendNotifications]
  simp [h]

/-- C3 witness: a tenant with no matching subscriptions gets the zero result
and an unchanged state. -/
theorem send_empty_targets_witness :
    sendNotifications (fun _ => .ok 201) (fun _ => false) "r1"
        ⟨"app9", "vp", "vk", ⟨5, 100, 100⟩⟩ ⟨"p", some "u1", none, none⟩ 50
        ⟨[], [], []⟩
      = (.ok { sent := 0, failed := 0, total := 0, results := [] }, ⟨[], [], []⟩) :=
  send_empty_targets (fun _ => .ok 201) (fun _ => false) "r1"
    ⟨"app9", "vp", "vk", ⟨5, 100, 100⟩⟩ ⟨"p", some "u1", none, none⟩ 50
    ⟨[], [], []⟩ (by decide)

/-- C2: when the resolved target set is non-empty and the rate-limit check
reports not allowed, the whole `Send` call fails with the rate-limit error;
no delivery attempt is made and the registry is untouched, but the counter
increment performed by the check stands in the final state
(src/lib/notifications.ts). -/
theorem send_rate_limited (transport : Subscription → DeliveryOutcome)
    (deleteFails : String → Bool) (rateRowId : String) (app : App)
    (req : SendRequest) (now : Nat) (st : DispatchState)
    (hne : resolveTargets app req now st.registry ≠ [])
    (hra : (checkAndIncrementRateLimit rateRowId app.id
        (if (resolveTargets app req now st.registry).length > 1
          then RateAction.broadcast else RateAction.notification)
        app.rateLimit.maxNotificationsPerMinute 60000 now st.rate).1.allowed = false) :
    sendNotifications transport deleteFails rateRowId app req now st
      = (.error .rateLimitExceeded,
         { registry := st.registry,
           rate := (checkAndIncrementRateLimit rateRowId app.id
             (if (resolveTargets app req now st.registry).length > 1
               then RateAction.broadcast else RateAction.notification)
             app.rateLimit.maxNotificationsPerMinute 60000 now st.rate).2,
           attempts := st.attempts }) := by
  rw [sendNotifications]
  rw [if_neg (by simpa [List.length_eq_zero] using hne)]
  simp only [hra]
  rfl

/-- C2 witness: with `maxNotificationsPerMinute = 0` and one live target, the
call fails with the rate-limit error, no attempt is logged, and the count-1
window row written by the check remains. -/
theorem send_rate_limited_witness :
    sendNotifications (fun _ => .ok 201) (fun _ => false) "r1"
        ⟨"app1", "vp", "vk", ⟨0, 100, 100⟩⟩ ⟨"p", none, none, none⟩ 50
        ⟨[⟨"sA", "app1", "https://e/a", "k", "a", none, none, "", 10, none⟩], [], []⟩
      = (.error .rateLimitExceeded,
         { registry := [⟨"sA", "app1", "https://e/a", "k", "a", none, none, "", 10, none⟩],
           rate := [⟨"r1", "app1", RateAction.notification, 1, 0⟩],
           attempts := [] }) := by
  have h := send_rate_limited (fun _ => .ok 201) (fun _ => false) "r1"
    ⟨"app1", "vp", "vk", ⟨0, 100, 100⟩⟩ ⟨"p", none, none, none⟩ 50
    ⟨[⟨"sA", "app1", "https://e/a", "k", "a", none, none, "", 10, none⟩], [], []⟩
    (by decide) (by decide)
  rw [h]
  rfl

/-! ## Target resolution and expiry -/

theorem insertNewest_perm (x : Subscription) :
    ∀ l : List Subscription, (insertNewest x l).Perm (x :: l)
  | [] => List.Perm.refl _
  | y :: ys => by
    rw [insertNewest]
    split
    · exact List.Perm.refl _
    · exact ((insertNewest_perm x ys).cons y).trans (List.Perm.swap x y ys)

theorem sortNewestFirst_perm : ∀ l : List Subscription, (sortNewestFirst l).Perm l
  | [] => List.Perm.refl _
  | x :: xs => (insertNewest_perm x (sortNewestFirst xs)).trans
      ((sortNewestFirst_perm xs).cons x)

theorem mem_pageRows {options : QueryOptions} {rows : List Subscription}
    {s : Subscription} (h : s ∈ pageRows options rows) : s ∈ rows := by
  rw [pageRows] at h
  exact (sortNewestFirst_perm rows).mem_iff.mp
    (List.drop_subset _ _ (List.take_subset _ _ h))

/-- Every row returned by the by-app query belongs to the registry, belongs to
the queried app, and is live (its expiry, if any, lies in the future). -/
theorem getSubscriptionsByApp_sound {appId : String} {options : QueryOptions}
    {now : Nat} {registry : List Subscription} {s : Subscription}
    (h : s ∈ getSubscriptionsByApp appId options now registry) :
    s ∈ registry ∧ s.appId = appId ∧ isLive now s = true := by
  rw [getSubscriptionsByApp] at h
  split_ifs at h <;>
  · have hm := List.mem_filter.mp (mem_pageRows h)
    refine ⟨hm.1, ?_, ?_⟩
    · have := hm.2
      simp only [Bool.and_eq_true, beq_iff_eq] at this
      tauto
    · have := hm.2
      simp only [Bool.and_eq_true] at this
      tauto

/-- C9 counterexample: a subscription whose expiry (5) lies in the past at
call time (now = 100) is nevertheless resolved into the target set when it
is addressed through an explicit subscriptionIds list — the by-ids path has
no expiry filter. -/
theorem expired_sub_targeted_by_ids :
    isLive 100 (⟨"sB", "app1", "https://e/b", "k", "a", none, none, "", 20, some 5⟩
        : Subscription) = false ∧
    (⟨"sB", "app1", "https://e/b", "k", "a", none, none, "", 20, some 5⟩ : Subscription)
      ∈ resolveTargets ⟨"app1", "vp", "vk", ⟨5, 100, 100⟩⟩
          ⟨"p", none, none, some ["sB"]⟩ 100
          [⟨"sB", "app1", "https://e/b", "k", "a", none, none, "", 20, some 5⟩] := by
  decide

/-- C9 (amended): a subscription past its expiry is excluded from the
resolved target set when targets are resolved through the tenant-wide /
userId / channelId query (and the exclusion is a pure read — no row is
deleted); but when targets are resolved from an explicit subscriptionIds
list, expiry is not checked: every registry row of the calling tenant whose
id is listed is included, expired or not. -/
theorem expiry_filtering (now : Nat) (registry : List Subscription) :
    (∀ (appId : String) (options : QueryOptions) (s : Subscription),
        s ∈ getSubscriptionsByApp appId options now registry →
        isLive now s = true ∧ s ∈ registry) ∧
    (∀ (app : App) (req : SendRequest) (s : Subscription),
        req.subscriptionIds = none →
        s ∈ resolveTargets app req now registry → isLive now s = true) ∧
    (∀ (app : App) (req : SendRequest) (ids : List String) (s : Subscription),
        req.subscriptionIds = some ids → ids ≠ [] →
        s ∈ registry → s.appId = app.id → ids.contains s.id = true →
        s ∈ resolveTargets app req now registry) := by
  refine ⟨?_, ?_, ?_⟩
  · intro appId options s h
    have := getSubscriptionsByApp_sound h
    tauto
  · intro app req s hids h
    rw [resolveTargets, hids] at h
    exact (getSubscriptionsByApp_sound h).2.2
  · intro app req ids s hids hne hmem happ hcont
    rw [resolveTargets, hids]
    dsimp only
    rw [if_pos (by simpa [List.length_pos] using hne)]
    refine List.mem_filter.mpr ⟨?_, by simp [happ]⟩
    rw [getSubscriptionsByIds, if_neg (by simpa using hne)]
    exact List.mem_filter.mpr ⟨hmem, hcont⟩

/-- C9 witness: on a one-row registry holding an expired subscription, the
broadcast query excludes it while the explicit-ids path includes it. -/
theorem expiry_filtering_witness :
    ((⟨"sW", "appW", "https://e/w", "k", "a", none, none, "", 20, some 5⟩ : Subscription)
      ∈ resolveTargets ⟨"appW", "vp", "vk", ⟨5, 100, 100⟩⟩ ⟨"p", none, none, some ["sW"]⟩
          100 [⟨"sW", "appW", "https://e/w", "k", "a", none, none, "", 20, some 5⟩]) ∧
    ∀ s ∈ getSubscriptionsByApp "appW" ⟨none, none, none, none⟩ 100
        [⟨"sW", "appW", "https://e/w", "k", "a", none, none, "", 20, some 5⟩],
      isLive 100 s = true := by
  constructor
  · exact (expiry_filtering 100 _).2.2 ⟨"appW", "vp", "vk", ⟨5, 100, 100⟩⟩
      ⟨"p", none, none, some ["sW"]⟩ ["sW"] _ rfl (by simp) (by simp) rfl (by decide)
  · intro s hs
    exact ((expiry_filtering 100 _).1 "appW" ⟨none, none, none, none⟩ s hs).1

theorem sendToSubscription_ok (transport : Subscription → DeliveryOutcome)
    (deleteFails : String → Bool) (app : App) (payload : String)
    (sub : Subscription) (st : DispatchState)
    (hnb : ¬(isGoneOutcome (transport sub) = true ∧ deleteFails sub.id = true)) :
    sendToSubscription transport deleteFails app payload sub st
      = (.ok (resultOf transport sub),
         { registry := if isGoneOutcome (transport sub)
             then st.registry.filter (fun r => !(r.id == sub.id)) else st.registry,
           rate := st.rate,
           attempts := st.attempts ++ [mkAttempt app payload sub] }) := by
  rw [sendToSubscription, resultOf]
  rcases htr : transport sub with code | ⟨status, msg⟩
  · simp [isGoneOutcome]
  · by_cases hg : isGoneStatus status = true
    · have hdf : deleteFails sub.id = false := by
        rcases Bool.eq_false_or_eq_true (deleteFails sub.id) with h | h
        · exact absurd ⟨by simp [htr, isGoneOutcome, hg], h⟩ hnb
        · exact h
      simp [hg, hdf, deleteSubscription, isGoneOutcome]
    · simp [hg, isGoneOutcome]

theorem sendToSubscription_fail (transport : Subscription → DeliveryOutcome)
    (deleteFails : String → Bool) (app : App) (payload : String)
    (sub : Subscription) (st : DispatchState)
    (hg : isGoneOutcome (transport sub) = true) (hdf : deleteFails sub.id = true) :
    sendToSubscription transport deleteFails app payload sub st
      = (.error .internalError,
         { registry := st.registry, rate := st.rate,
           attempts := st.attempts ++ [mkAttempt app payload sub] }) := by
  rw [sendToSubscription]
  rcases htr : transport sub with code | ⟨status, msg⟩
  · rw [htr] at hg
    simp [isGoneOutcome] at hg
  · rw [htr] at hg
    simp only [isGoneOutcome] at hg
    simp [hg, hdf]

theorem processBatch_ok (transport : Subscription → DeliveryOutcome)
    (deleteFails : String → Bool) (app : App) (payload : String) :
    ∀ (batch : List Subscription) (st : DispatchState),
    (∀ t ∈ batch, ¬(isGoneOutcome (transport t) = true ∧ deleteFails t.id = true)) →
    processBatch transport deleteFails app payload batch st
      = (.ok (batch.map (resultOf transport)),
         { registry := st.registry.filter
             (fun r => !(goneIds transport batch).contains r.id),
           rate := st.rate,
           attempts := st.attempts ++ batch.map (mkAttempt app payload) })
  | [], st, _ => by
    simp [processBatch, goneIds]
  | t :: rest, st, h => by
    rw [processBatch,
      sendToSubscription_ok transport deleteFails app payload t st (h t (by simp)),
      processBatch_ok transport deleteFails app payload rest _
        (fun x hx => h x (by simp [hx]))]
    dsimp only
    refine Prod.ext rfl ?_
    have hgs : goneIds transport (t :: rest)
        = if isGoneOutcome (transport t) then t.id :: goneIds transport rest
          else goneIds transport rest := by
      by_cases hg : isGoneOutcome (transport t) = true <;>
        simp [goneIds, List.filter_cons, hg]
    refine DispatchState.ext ?_ rfl ?_
    · by_cases hg : isGoneOutcome (transport t) = true
      · rw [hgs]
        simp only [hg, if_pos, if_true]
        rw [List.filter_filter]
        apply List.filter_congr
        intro r _
        rw [List.contains_cons]
        cases r.id == t.id <;> cases (goneIds transport rest).contains r.id <;> rfl
      · rw [hgs]
        simp [hg]
    · simp

theorem processBatch_err (transport : Subscription → DeliveryOutcome)
    (deleteFails : String → Bool) (app : App) (payload : String) :
    ∀ (batch : List Subscription) (st : DispatchState),
    (∃ t ∈ batch, isGoneOutcome (transport t) = true ∧ deleteFails t.id = true) →
    (processBatch transport deleteFails app payload batch st).1
      = .error .internalError
  | [], _, hex => by simp at hex
  | t :: rest, st, hex => by
    rw [processBatch]
    by_cases hb : isGoneOutcome (transport t) = true ∧ deleteFails t.id = true
    · rw [sendToSubscription_fail transport deleteFails app payload t st hb.1 hb.2]
    · rw [sendToSubscription_ok transport deleteFails app payload t st hb]
      have hex' : ∃ x ∈ rest, isGoneOutcome (transport x) = true ∧ deleteFails x.id = true := by
        rcases hex with ⟨x, hx, hxb⟩
        rcases List.mem_cons.mp hx with rfl | hx'
        · exact absurd hxb hb
        · exact ⟨x, hx', hxb⟩
      have ih := processBatch_err transport deleteFails app payload rest
        ({ registry := if isGoneOutcome (transport t) = true
             then st.registry.filter (fun r => !(r.id == t.id)) else st.registry,
           rate := st.rate,
           attempts := st.attempts ++ [mkAttempt app payload t] }) hex'
      rcases hpt : processBatch transport deleteFails app payload rest _ with ⟨e | rs, st2⟩
      · rw [hpt] at ih
        simp at ih
        subst ih
        simp
      · rw [hpt] at ih
        simp at ih

theorem goneIds_append (transport : Subscription → DeliveryOutcome)
    (l1 l2 : List Subscription) :
    goneIds transport (l1 ++ l2) = goneIds transport l1 ++ goneIds transport l2 := by
  simp [goneIds, List.filter_append]

theorem processBatches_ok (transport : Subscription → DeliveryOutcome)
    (deleteFails : String → Bool) (app : App) (payload : String) :
    ∀ (bs : List (List Subscription)) (st : DispatchState),
    (∀ b ∈ bs, ∀ t ∈ b, ¬(isGoneOutcome (transport t) = true ∧ deleteFails t.id = true)) →
    processBatches transport deleteFails app payload bs st
      = (.ok (bs.flatten.map (resultOf transport)),
         { registry := st.registry.filter
             (fun r => !(goneIds transport bs.flatten).contains r.id),
           rate := st.rate,
           attempts := st.attempts ++ bs.flatten.map (mkAttempt app payload) })
  | [], st, _ => by
    simp [processBatches, goneIds]
  | b :: bs, st, h => by
    rw [processBatches,
      processBatch_ok transport deleteFails app payload b st (h b (by simp))]
    dsimp only
    rw [processBatches_ok transport deleteFails app payload bs _
        (fun b2 hb2 => h b2 (by simp [hb2]))]
    dsimp only
    refine Prod.ext ?_ ?_
    · simp [List.flatten_cons]
    · refine DispatchState.ext ?_ rfl ?_
      · rw [List.filter_filter]
        apply List.filter_congr
        intro r _
        rw [show goneIds transport ((b :: bs).flatten)
            = goneIds transport b ++ goneIds transport bs.flatten from by
          rw [List.flatten_cons, goneIds_append]]
        have hca : (goneIds transport b ++ goneIds transport bs.flatten).contains r.id
            = ((goneIds transport b).contains r.id
               || (goneIds transport bs.flatten).contains r.id) := by simp
        rw [hca]
        cases (goneIds transport b).contains r.id <;>
          cases (goneIds transport bs.flatten).contains r.id <;> rfl
      · simp [List.flatten_cons]

theorem processBatches_err (transport : Subscription → DeliveryOutcome)
    (deleteFails : String → Bool) (app : App) (payload : String) :
    ∀ (bs : List (List Subscription)) (st : DispatchState),
    (∃ b ∈ bs, ∃ t ∈ b, isGoneOutcome (transport t) = true ∧ deleteFails t.id = true) →
    (processBatches transport deleteFails app payload bs st).1
      = .error .internalError
  | [], _, hex => by simp at hex
  | b :: bs, st, hex => by
    rw [processBatches]
    by_cases hb : ∃ t ∈ b, isGoneOutcome (transport t) = true ∧ deleteFails t.id = true
    · have hpe := processBatch_err transport deleteFails app payload b st hb
      rcases hpb : processBatch transport deleteFails app payload b st with ⟨e | rs, st1⟩
      · rw [hpb] at hpe
        dsimp only at hpe ⊢
        exact hpe
      · rw [hpb] at hpe
        simp at hpe
    · have hok : ∀ t ∈ b, ¬(isGoneOutcome (transport t) = true ∧ deleteFails t.id = true) := by
        intro t ht hc
        exact hb ⟨t, ht, hc⟩
      rw [processBatch_ok transport deleteFails app payload b st hok]
      dsimp only
      have hex' : ∃ b2 ∈ bs, ∃ t ∈ b2,
          isGoneOutcome (transport t) = true ∧ deleteFails t.id = true := by
        rcases hex with ⟨b2, hb2, hin⟩
        rcases List.mem_cons.mp hb2 with rfl | hb2'
        · exact absurd hin hb
        · exact ⟨b2, hb2', hin⟩
      have ih := processBatches_err transport deleteFails app payload bs
        ({ registry := st.registry.filter
             (fun r => !(goneIds transport b).contains r.id),
           rate := st.rate,
           attempts := st.attempts ++ b.map (mkAttempt app payload) }) hex'
      rcases hpt : processBatches transport deleteFails app payload bs _ with ⟨e | rs, st2⟩
      · rw [hpt] at ih
        dsimp only at ih ⊢
        exact ih
      · rw [hpt] at ih
        simp at ih

theorem chunksOfGo_flatten (n : Nat) (hn : 0 < n) :
    ∀ (fuel : Nat) (l : List Subscription), l.length ≤ fuel →
      (chunksOfGo n fuel l).flatten = l
  | _, [], _ => by cases ‹Nat› <;> simp [chunksOfGo]
  | 0, x :: xs, h => by simp at h
  | fuel + 1, x :: xs, h => by
    rw [chunksOfGo, List.flatten_cons,
      chunksOfGo_flatten n hn fuel ((x :: xs).drop n)
        (by rw [List.length_drop]; simp at h ⊢; omega),
      List.take_append_drop]

theorem chunksOf_flatten (n : Nat) (hn : 0 < n) (l : List Subscription) :
    (chunksOf n l).flatten = l :=
  chunksOfGo_flatten n hn l.length l (Nat.le_refl _)

theorem finishSend_err (total : Nat)
    (run : Except DispatchError (List SendResult) × DispatchState)
    {e : DispatchError} (h : run.1 = .error e) :
    finishSend total run = (.error e, run.2) := by
  rcases run with ⟨e' | rs, st2⟩
  · obtain rfl : e' = e := by
      injection h
    rfl
  · simp at h

/-- C5 counterexample: one target whose delivery reports 410 gone and whose
pruning delete fails with a store error — the `Send` call does not return an
aggregate result; it fails as a whole (the delete rejection escapes the catch
block, `Promise.all`, and `sendNotifications`). -/
theorem pruning_delete_failure_aborts_send :
    (sendNotifications (fun _ => .err (some 410) (some "gone")) (fun _ => true) "r1"
        ⟨"app1", "vp", "vk", ⟨5, 100, 100⟩⟩ ⟨"p", none, none, none⟩ 100
        ⟨[⟨"sA", "app1", "https://e/a", "k", "a", none, none, "", 10, none⟩], [], []⟩).1
      = .error .internalError := rfl

/-- C5 (amended): when a delivery receives a permanent (gone) outcome and the
subsequent registry delete of that subscription fails with a store error, the
overall `Send` call does NOT complete with an aggregate result: the store
rejection escapes the catch block and the whole call fails
(src/lib/notifications.ts — the `deleteSubscription` call inside the catch
has no try of its own). -/
theorem send_pruning_delete_failure (transport : Subscription → DeliveryOutcome)
    (deleteFails : String → Bool) (rateRowId : String) (app : App)
    (req : SendRequest) (now : Nat) (st : DispatchState)
    (hallow : (checkAndIncrementRateLimit rateRowId app.id
        (if (resolveTargets app req now st.registry).length > 1
          then RateAction.broadcast else RateAction.notification)
        app.rateLimit.maxNotificationsPerMinute 60000 now st.rate).1.allowed = true)
    (hex : ∃ t ∈ resolveTargets app req now st.registry,
        isGoneOutcome (transport t) = true ∧ deleteFails t.id = true) :
    (sendNotifications transport deleteFails rateRowId app req now st).1
      = .error .internalError := by
  obtain ⟨t, ht, hbad⟩ := hex
  have hne : resolveTargets app req now st.registry ≠ [] := by
    intro hc
    rw [hc] at ht
    simp at ht
  have hbj : ∃ b ∈ chunksOf 50 (resolveTargets app req now st.registry), t ∈ b := by
    apply List.mem_flatten.mp
    rw [chunksOf_flatten 50 (by norm_num)]
    exact ht
  obtain ⟨b, hbmem, htb⟩ := hbj
  rw [sendNotifications]
  rw [if_neg (by simpa [List.length_eq_zero] using hne)]
  dsimp only
  simp only [hallow, Bool.not_true, Bool.false_eq_true, if_false]
  rw [finishSend_err _ _ (processBatches_err transport deleteFails app req.payload
    (chunksOf 50 (resolveTargets app req now st.registry)) _
    ⟨b, hbmem, t, htb, hbad⟩)]

/-- C5 amended-claim witness: the concrete gone-plus-failing-delete scenario
run through the general theorem. -/
theorem send_pruning_delete_failure_witness :
    (sendNotifications (fun _ => .err (some 404) none) (fun _ => true) "r9"
        ⟨"app7", "vp", "vk", ⟨9, 100, 100⟩⟩ ⟨"q", none, none, none⟩ 70000
        ⟨[⟨"sZ", "app7", "https://e/z", "k", "a", none, none, "", 10, none⟩], [], []⟩).1
      = .error .internalError :=
  send_pruning_delete_failure (fun _ => .err (some 404) none) (fun _ => true) "r9"
    ⟨"app7", "vp", "vk", ⟨9, 100, 100⟩⟩ ⟨"q", none, none, none⟩ 70000
    ⟨[⟨"sZ", "app7", "https://e/z", "k", "a", none, none, "", 10, none⟩], [], []⟩
    (by decide)
    ⟨⟨"sZ", "app7", "https://e/z", "k", "a", none, none, "", 10, none⟩,
      by decide, by decide, by decide⟩

theorem resolveTargets_subset {app : App} {req : SendRequest} {now : Nat}
    {registry : List Subscription} {t : Subscription}
    (h : t ∈ resolveTargets app req now registry) : t ∈ registry := by
  rw [resolveTargets] at h
  rcases hids : req.subscriptionIds with _ | ids
  · rw [hids] at h
    exact (getSubscriptionsByApp_sound h).1
  · rw [hids] at h
    dsimp only at h
    split_ifs at h
    · have h1 := (List.mem_filter.mp h).1
      rw [getSubscriptionsByIds] at h1
      split_ifs at h1
      · simp at h1
      · exact (List.mem_filter.mp h1).1
    · exact (getSubscriptionsByApp_sound h).1

theorem getSubscriptionById_of_nodup :
    ∀ {l : List Subscription}, (l.map (fun s => s.id)).Nodup → ∀ {t : Subscription},
      t ∈ l → getSubscriptionById t.id l = some t
  | [], _, _, ht => absurd ht (by simp)
  | a :: l, hnd, t, ht => by
    rw [List.map_cons, List.nodup_cons] at hnd
    rcases List.mem_cons.mp ht with rfl | htl
    · rw [getSubscriptionById, List.find?_cons_of_pos _ (by simp)]
    · have hne : (a.id == t.id) = false := by
        have h2 : t.id ∈ l.map (fun s => s.id) := List.mem_map.mpr ⟨t, htl, rfl⟩
        simp only [beq_eq_false_iff_ne, ne_eq]
        intro hc
        rw [hc] at hnd
        exact hnd.1 h2
      rw [getSubscriptionById, List.find?_cons_of_neg _ (by simp [hne])]
      exact getSubscriptionById_of_nodup hnd.2 htl

/-- C4: inside a `Send` with a live rate-limit gate and working pruning
deletes, every resolved target is attempted and classified — no target's
failure aborts the others: the result list maps each target in order to its
classified outcome; a failure outcome records `success = false` with the
transport's status code and message; a permanently-gone target (404/410) is
removed from the registry by the end of the call; any other target — in
particular every transient failure — is still returned unchanged by a
subsequent `GetById` (src/lib/notifications.ts). -/
theorem send_outcome_classification (transport : Subscription → DeliveryOutcome)
    (deleteFails : String → Bool) (rateRowId : String) (app : App)
    (req : SendRequest) (now : Nat) (st : DispatchState)
    (hne : resolveTargets app req now st.registry ≠ [])
    (hallow : (checkAndIncrementRateLimit rateRowId app.id
        (if (resolveTargets app req now st.registry).length > 1
          then RateAction.broadcast else RateAction.notification)
        app.rateLimit.maxNotificationsPerMinute 60000 now st.rate).1.allowed = true)
    (hdf : ∀ t ∈ resolveTargets app req now st.registry, deleteFails t.id = false)
    (hnodup : (st.registry.map (fun s => s.id)).Nodup) :
    ∃ res : BatchSendResult, ∃ st2 : DispatchState,
      sendNotifications transport deleteFails rateRowId app req now st = (.ok res, st2) ∧
      res.results = (resolveTargets app req now st.registry).map (resultOf transport) ∧
      res.total = (resolveTargets app req now st.registry).length ∧
      st2.attempts = st.attempts
        ++ (resolveTargets app req now st.registry).map (mkAttempt app req.payload) ∧
      (∀ t ∈ resolveTargets app req now st.registry, ∀ status msg,
        transport t = .err status msg →
        resultOf transport t
          = { subscriptionId := t.id, success := false, statusCode := status,
              error := some (msg.getD "Push failed") }) ∧
      (∀ t ∈ resolveTargets app req now st.registry,
        isGoneOutcome (transport t) = true →
        getSubscriptionById t.id st2.registry = none) ∧
      (∀ t ∈ resolveTargets app req now st.registry,
        isGoneOutcome (transport t) = false →
        getSubscriptionById t.id st2.registry = some t ∧
        getSubscriptionById t.id st.registry = some t) := by
  have hflat := chunksOf_flatten 50 (by norm_num) (resolveTargets app req now st.registry)
  have hok : ∀ b ∈ chunksOf 50 (resolveTargets app req now st.registry), ∀ t ∈ b,
      ¬(isGoneOutcome (transport t) = true ∧ deleteFails t.id = true) := by
    intro b hb t htb hc
    have hts : t ∈ resolveTargets app req now st.registry := by
      rw [← hflat]
      exact List.mem_flatten.mpr ⟨b, hb, htb⟩
    rw [hdf t hts] at hc
    exact absurd hc.2 (by simp)
  have heq : sendNotifications transport deleteFails rateRowId app req now st
      = (.ok { sent := (((resolveTargets app req now st.registry).map
                 (resultOf transport)).filter (fun r => r.success)).length,
               failed := (((resolveTargets app req now st.registry).map
                 (resultOf transport)).filter (fun r => !r.success)).length,
               total := (resolveTargets app req now st.registry).length,
               results := (resolveTargets app req now st.registry).map
                 (resultOf transport) },
         { registry := st.registry.filter (fun r =>
             !(goneIds transport (resolveTargets app req now st.registry)).contains r.id),
           rate := (checkAndIncrementRateLimit rateRowId app.id
             (if (resolveTargets app req now st.registry).length > 1
               then RateAction.broadcast else RateAction.notification)
             app.rateLimit.maxNotificationsPerMinute 60000 now st.rate).2,
           attempts := st.attempts ++ (resolveTargets app req now st.registry).map
             (mkAttempt app req.payload) }) := by
    rw [sendNotifications]
    rw [if_neg (by simpa [List.length_eq_zero] using hne)]
    dsimp only
    simp only [hallow, Bool.not_true, Bool.false_eq_true, if_false]
    rw [processBatches_ok transport deleteFails app req.payload
      (chunksOf 50 (resolveTargets app req now st.registry)) _ hok, hflat]
    rfl
  refine ⟨_, _, heq, rfl, rfl, rfl, ?_, ?_, ?_⟩
  · intro t _ status msg htr
    rw [resultOf, htr]
  · intro t ht hg
    rw [getSubscriptionById, List.find?_eq_none]
    intro x hx
    have hxm := List.mem_filter.mp hx
    intro hxid
    have hgid : t.id ∈ goneIds transport (resolveTargets app req now st.registry) :=
      List.mem_map.mpr ⟨t, List.mem_filter.mpr ⟨ht, hg⟩, rfl⟩
    have hxid' : x.id = t.id := by simpa using hxid
    rw [hxid'] at hxm
    simp [hgid] at hxm
  · intro t ht hg
    have htr : t ∈ st.registry := resolveTargets_subset ht
    have hnotgone : ¬t.id ∈ goneIds transport (resolveTargets app req now st.registry) := by
      intro hc
      rw [goneIds] at hc
      rcases List.mem_map.mp hc with ⟨t', ht', hid⟩
      have ht'm := List.mem_filter.mp ht'
      have ht'r : t' ∈ st.registry := resolveTargets_subset ht'm.1
      have : t' = t := List.inj_on_of_nodup_map hnodup ht'r htr hid
      rw [this] at ht'm
      rw [hg] at ht'm
      exact absurd ht'm.2 (by simp)
    constructor
    · have hmem : t ∈ st.registry.filter (fun r =>
          !(goneIds transport (resolveTargets app req now st.registry)).contains r.id) :=
        List.mem_filter.mpr ⟨htr, by simpa using hnotgone⟩
      have hnd2 : ((st.registry.filter (fun r =>
          !(goneIds transport (resolveTargets app req now st.registry)).contains r.id)).map
            (fun s => s.id)).Nodup :=
        ((List.filter_sublist st.registry).map (fun s => s.id)).nodup hnodup
      exact getSubscriptionById_of_nodup hnd2 hmem
    · exact getSubscriptionById_of_nodup hnodup htr

/-- C4 witness: in a three-target send with one success, one 410 and one 500,
the 410 target is pruned from the registry while the 500 target survives
unchanged. -/
theorem send_outcome_classification_witness :
    getSubscriptionById "sGone"
        (sendNotifications demoTransport (fun _ => false) "r1" demoApp demoReq 100
          demoState).2.registry = none ∧
    getSubscriptionById "sTr"
        (sendNotifications demoTransport (fun _ => false) "r1" demoApp demoReq 100
          demoState).2.registry
      = getSubscriptionById "sTr" demoState.registry := by
  obtain ⟨res, st2, heq, -, -, -, -, hgone, hkeep⟩ :=
    send_outcome_classification demoTransport (fun _ => false) "r1" demoApp demoReq 100
      demoState (by decide) (by decide) (fun t _ => rfl) (by decide)
  have h2 : (sendNotifications demoTransport (fun _ => false) "r1" demoApp demoReq 100
      demoState).2 = st2 := by
    rw [heq]
  constructor
  · rw [h2]
    exact hgone demoSubGone (by decide) (by decide)
  · rw [h2]
    have hk := hkeep demoSubTr (by decide) (by decide)
    exact hk.1.trans hk.2.symm

end VapidParty
